import Mathlib

/-!
# The NS1 user resource (`ns1/resource_user.go`)

A shallow embedding of the user resource handler: the two translations between
the resource state of the framework and the `account.User` of the API, and the four
lifecycle operations `UserCreate`, `UserRead`, `UserUpdate`, `UserDelete`.

Conventions of the embedding.

* A Go slice is an `Option (List _)`: `none` is the nil slice, `some l` a
  slice that was allocated (`make`), also when it is empty.
* A Go `map[string]bool` is an association list read with `List.lookup`.
* An `interface{}` element of the list `teams` is an `Option String`: `none` is
  the nil interface, `some s` the string `s`.
* A Go `error` value is a `GoError`; the nil error is `none`.
* A function that can stop in a run-time panic (a failed unchecked type
  assertion, a nil dereference) reports it as `Outcome.panicked`.
* The API client is a state machine over an arbitrary state `σ`; every
  operation records the calls it makes, in order.
* The permission helpers of the sibling file (`permissionsToResourceData`,
  `resourceDataToPermissions`) are parameters, see `PermsHelper`.
-/

namespace NS1

/-! ## Go values -/

/-- A Go `error` value: `msg` is what its `Error()` method returns, `kind`
stands for everything else that tells two error values apart (dynamic type,
further fields). -/
structure GoError where
  kind : Nat
  msg : String
deriving DecidableEq, Repr

/-- The method `err.Error()`. -/
def GoError.Error (e : GoError) : String := e.msg

/-- How a Go function call ends: it returns its `error` result (`none` is the
nil error), or the goroutine panics. -/
inductive Outcome where
  | returned (err : Option GoError)
  | panicked
deriving DecidableEq, Repr

/-- The function `strings.Contains(s, substr)`: `substr` is a prefix of some suffix of `s`. -/
def stringsContains (s substr : String) : Bool :=
  s.toList.tails.any (fun t => substr.toList.isPrefixOf t)

/-- The map assignment `m[k] = v` on an association list: the entry for `k` is
replaced. -/
def mapSet (m : List (String × Bool)) (k : String) (v : Bool) : List (String × Bool) :=
  (k, v) :: m.filter (fun e => e.1 != k)

/-! ## The domain object `account.User` -/

/-- The struct `account.NotificationSettings`. -/
structure NotificationSettings where
  Billing : Bool
deriving DecidableEq, Repr

/-- The fields of `account.User` the handler reads or writes; `P` is the type
of `account.PermissionsMap`. -/
structure User (P : Type) where
  Name : String
  Username : String
  Email : String
  TeamIDs : Option (List String)
  Notify : NotificationSettings
  Permissions : P
deriving DecidableEq, Repr

/-- The builtin `len` on a slice: the nil slice has length 0. -/
def len {α : Type} (s : Option (List α)) : Nat :=
  match s with
  | none => 0
  | some l => l.length

/-! ## The resource state `schema.ResourceData` -/

/-- The resource state as the handler observes it through `Id`, `Get`,
`GetOk`, `HasChange`, `SetId` and `Set`, for the schema of `userResource`.
`teams` and `notify` are optional: `none` is a field that was never given a
value. The list `teams` is the `[]interface{}` the framework hands out: an
element is a string, or the nil interface, which the framework gives for an
empty string coming from the plan. `teamsOld` and `teamsNew` are the pair `GetChange("teams")` reports (the
value in the prior state and the planned one); `Set` does not alter them.
`perms` holds the permission fields added by `addPermsSchema`. -/
structure ResourceData (F : Type) where
  id : String
  name : String
  username : String
  email : String
  teams : Option (List (Option String))
  notify : Option (List (String × Bool))
  teamsOld : List (Option String)
  teamsNew : List (Option String)
  perms : F
deriving DecidableEq, Repr

namespace ResourceData

variable {F : Type}

/-- The method `d.Id()`. -/
def Id (d : ResourceData F) : String := d.id

/-- The method `d.SetId(v)`. -/
def SetId (d : ResourceData F) (v : String) : ResourceData F := { d with id := v }

/-- The call `d.Get("name")`. -/
def GetName (d : ResourceData F) : String := d.name

/-- The call `d.Get("username")`. -/
def GetUsername (d : ResourceData F) : String := d.username

/-- The call `d.Get("email")`. -/
def GetEmail (d : ResourceData F) : String := d.email

/-- The call `d.Get("teams")`: the zero value of a list, the empty list, when unset. -/
def GetTeams (d : ResourceData F) : List (Option String) := d.teams.getD []

/-- The call `d.Get("notify")`: the zero value of a map, the empty map, when unset. -/
def GetNotify (d : ResourceData F) : List (String × Bool) := d.notify.getD []

/-- The call `d.GetOk("teams")`: the value, and whether the field has been set
to a non-zero value, that is to a value other than the zero value of its type,
the empty list. -/
def GetOkTeams (d : ResourceData F) : List (Option String) × Bool :=
  (d.GetTeams, d.teams.isSome && !d.GetTeams.isEmpty)

/-- The call `d.GetOk("notify")`: the value, and whether the field has been set
to a non-zero value, that is to a value other than the zero value of its type,
the empty map. -/
def GetOkNotify (d : ResourceData F) : List (String × Bool) × Bool :=
  (d.GetNotify, d.notify.isSome && !d.GetNotify.isEmpty)

/-- The call `d.HasChange("teams")`: the two values of `GetChange` differ. -/
def HasChangeTeams (d : ResourceData F) : Bool := decide (d.teamsOld ≠ d.teamsNew)

/-- The call `d.Set("name", v)`. -/
def SetName (d : ResourceData F) (v : String) : ResourceData F := { d with name := v }

/-- The call `d.Set("email", v)`. -/
def SetEmail (d : ResourceData F) (v : String) : ResourceData F := { d with email := v }

/-- The call `d.Set("teams", v)` for a `[]string`: the strings of the slice
are stored, a nil slice as the empty list. -/
def SetTeams (d : ResourceData F) (v : Option (List String)) : ResourceData F :=
  { d with teams := some ((v.getD []).map some) }

/-- The call `d.Set("notify", v)` for a `map[string]bool`: the map replaces the field. -/
def SetNotify (d : ResourceData F) (v : List (String × Bool)) : ResourceData F :=
  { d with notify := some v }

end ResourceData

/-! ## The permission helpers -/

/-- The two helpers of the sibling permissions file, which the handler
delegates to: `resourceDataToPermissions` reads the permission fields of the
state, `permissionsToResourceData` writes them and leaves the other fields of
the state alone. `zero` is the zero value of `account.PermissionsMap`. -/
structure PermsHelper (P F : Type) where
  zero : P
  resourceDataToPermissions : F → P
  permissionsToResourceData : F → P → F

/-! ## The two translations -/

/-- The loop of lines 68-70, `for i, team := range teamsRaw`, from index `i`
on the slice `ids`: the unchecked assertion `team.(string)` of line 69 panics
on a nil element. The result is the slice when the loop ends, and whether it
ended normally (`false` is the panic). -/
def copyLoop (ids : List String) (i : Nat) : List (Option String) → List String × Bool
  | [] => (ids, true)
  | none :: _ => (ids, false)
  | some team :: rest => copyLoop (ids.set i team) (i + 1) rest

/-- Lines 67-70 of `resourceDataToUser`: `make([]string, len(teamsRaw))`
followed by the loop over `teamsRaw`. -/
def copyTeams (teamsRaw : List (Option String)) : List String × Bool :=
  copyLoop (List.replicate teamsRaw.length "") 0 teamsRaw

/-- The function `userToResourceData(d, u)` for a non-nil `u`; it always
returns the nil error, so only the new state is given. -/
def userToResourceData {P F : Type} (h : PermsHelper P F) (d : ResourceData F) (u : User P) :
    ResourceData F :=
  let d := d.SetId u.Username
  let d := d.SetName u.Name
  let d := d.SetEmail u.Email
  let d := d.SetTeams u.TeamIDs
  let notify : List (String × Bool) := mapSet [] "billing" u.Notify.Billing
  let d := d.SetNotify notify
  { d with perms := h.permissionsToResourceData d.perms u.Permissions }

/-- Lines 74-79 of `resourceDataToUser`, on the user `u` as lines 62-73 left
it. The unchecked assertion `notifyRaw["billing"].(bool)` of line 76 panics
when the map has no `billing` entry (the lookup yields the nil interface). -/
def notifyToUser {P F : Type} (h : PermsHelper P F) (u : User P) (d : ResourceData F) :
    User P × Outcome :=
  match d.GetOkNotify with
  | (notifyRaw, true) =>
    match notifyRaw.lookup "billing" with
    | some b =>
      let u := { u with Notify := { u.Notify with Billing := b } }
      ({ u with Permissions := h.resourceDataToPermissions d.perms }, Outcome.returned none)
    | none => (u, Outcome.panicked)
  | (_, false) =>
    ({ u with Permissions := h.resourceDataToPermissions d.perms }, Outcome.returned none)

/-- The function `resourceDataToUser(u, d)`: the contents of `*u` when the call
ends, and how it ends. It panics at line 69 on a nil element of `teams`, with
`TeamIDs` filled up to that element, and at line 76 on a `notify` map without
`billing`; `*u` keeps what was assigned before the panic. -/
def resourceDataToUser {P F : Type} (h : PermsHelper P F) (u : User P) (d : ResourceData F) :
    User P × Outcome :=
  let u := { u with Name := d.GetName }
  let u := { u with Username := d.GetUsername }
  let u := { u with Email := d.GetEmail }
  match d.GetOkTeams with
  | (teamsRaw, true) =>
    match copyTeams teamsRaw with
    | (ids, false) => ({ u with TeamIDs := some ids }, Outcome.panicked)
    | (ids, true) => notifyToUser h { u with TeamIDs := some ids } d
  | (_, false) => notifyToUser h { u with TeamIDs := some [] } d

/-- The composite literal `account.User{}`: every field at its zero value. -/
def User.zero {P F : Type} (h : PermsHelper P F) : User P :=
  { Name := "", Username := "", Email := "", TeamIDs := none,
    Notify := { Billing := false }, Permissions := h.zero }

/-- The user `resourceDataToUser` leaves in `*u` up to line 73: the three
strings of the state and the slice the copy loop has filled, the rest as it
was. -/
def userUpToTeams {P F : Type} (u : User P) (d : ResourceData F) : User P :=
  { u with Name := d.GetName, Username := d.GetUsername, Email := d.GetEmail,
           TeamIDs := some (copyTeams d.GetTeams).1 }

/-- The round trip: `resourceDataToUser` on the fresh user `account.User{}`
followed by `userToResourceData` onto the same state. The result is the state
the round trip ends in, or `none` when `resourceDataToUser` does not return
normally. -/
def roundTrip {P F : Type} (h : PermsHelper P F) (d : ResourceData F) :
    Option (ResourceData F) :=
  match resourceDataToUser h (User.zero h) d with
  | (u, Outcome.returned none) => some (userToResourceData h d u)
  | _ => none

/-! ## The API client -/

/-- One call to the users service of the API client, with its argument as it
was when the call was made. -/
inductive Call (P : Type) where
  | Create (u : User P)
  | Get (username : String)
  | Update (u : User P)
  | Delete (username : String)
deriving DecidableEq, Repr

/-- The users service `client.Users`, a state machine over `σ`. `Create` and
`Update` receive a pointer to the user, so they also return the contents of
that object after the call (the NS1 client decodes the answer of the API into
it). `Get` returns the user pointer (`none` is nil) and the error. The raw HTTP
response, which the handler discards everywhere, is left out. -/
structure Client (P σ : Type) where
  Create : User P → σ → (User P × Option GoError) × σ
  Get : String → σ → (Option (User P) × Option GoError) × σ
  Update : User P → σ → (User P × Option GoError) × σ
  Delete : String → σ → Option GoError × σ

/-- What one lifecycle operation leaves behind: the resource state, how the
operation ended, the API calls it made in order, and the state of the client. -/
structure Run (P F σ : Type) where
  d : ResourceData F
  out : Outcome
  calls : List (Call P)
  s : σ
deriving DecidableEq, Repr

/-! ## The lifecycle operations -/

/-- Lines 96-101 and 149-154: the follow-up `Get(key)` after the calls `pre`,
and the population of the state from the user it fetched. A nil user with a
nil error makes `userToResourceData` dereference nil. -/
def refresh {P F σ : Type} (h : PermsHelper P F) (c : Client P σ) (d : ResourceData F)
    (pre : List (Call P)) (key : String) (s : σ) : Run P F σ :=
  match c.Get key s with
  | ((_, some err), s2) => ⟨d, Outcome.returned (some err), pre ++ [Call.Get key], s2⟩
  | ((some updatedUser, none), s2) =>
    ⟨userToResourceData h d updatedUser, Outcome.returned none, pre ++ [Call.Get key], s2⟩
  | ((none, none), s2) => ⟨d, Outcome.panicked, pre ++ [Call.Get key], s2⟩

/-- The operation `UserCreate(d, meta)` with `meta` the client `c` in state `s`. -/
def UserCreate {P F σ : Type} (h : PermsHelper P F) (c : Client P σ) (d : ResourceData F)
    (s : σ) : Run P F σ :=
  match resourceDataToUser h (User.zero h) d with
  | (_, Outcome.panicked) => ⟨d, Outcome.panicked, [], s⟩
  | (_, Outcome.returned (some err)) => ⟨d, Outcome.returned (some err), [], s⟩
  | (u, Outcome.returned none) =>
    match c.Create u s with
    | ((_, some err), s1) => ⟨d, Outcome.returned (some err), [Call.Create u], s1⟩
    | ((u1, none), s1) =>
      if len u1.TeamIDs > 0 then
        refresh h c d [Call.Create u] u1.Username s1
      else
        ⟨userToResourceData h d u1, Outcome.returned none, [Call.Create u], s1⟩

/-- The operation `UserRead(d, meta)`. The debug log line is left out. -/
def UserRead {P F σ : Type} (h : PermsHelper P F) (c : Client P σ) (d : ResourceData F)
    (s : σ) : Run P F σ :=
  match c.Get d.Id s with
  | ((_, some err), s1) =>
    if stringsContains err.Error "User not found" then
      ⟨d.SetId "", Outcome.returned none, [Call.Get d.Id], s1⟩
    else
      ⟨d, Outcome.returned (some err), [Call.Get d.Id], s1⟩
  | ((some u, none), s1) =>
    ⟨userToResourceData h d u, Outcome.returned none, [Call.Get d.Id], s1⟩
  | ((none, none), s1) => ⟨d, Outcome.panicked, [Call.Get d.Id], s1⟩

/-- The operation `UserDelete(d, meta)`. -/
def UserDelete {P F σ : Type} (c : Client P σ) (d : ResourceData F) (s : σ) : Run P F σ :=
  match c.Delete d.Id s with
  | (err, s1) => ⟨d.SetId "", Outcome.returned err, [Call.Delete d.Id], s1⟩

/-- The operation `UserUpdate(d, meta)`. -/
def UserUpdate {P F σ : Type} (h : PermsHelper P F) (c : Client P σ) (d : ResourceData F)
    (s : σ) : Run P F σ :=
  match resourceDataToUser h { User.zero h with Username := d.Id } d with
  | (_, Outcome.panicked) => ⟨d, Outcome.panicked, [], s⟩
  | (_, Outcome.returned (some err)) => ⟨d, Outcome.returned (some err), [], s⟩
  | (u, Outcome.returned none) =>
    match c.Update u s with
    | ((_, some err), s1) => ⟨d, Outcome.returned (some err), [Call.Update u], s1⟩
    | ((u1, none), s1) =>
      if d.HasChangeTeams then
        refresh h c d [Call.Update u] d.Id s1
      else
        ⟨userToResourceData h d u1, Outcome.returned none, [Call.Update u], s1⟩

/-! ## Concrete instances used in the examples -/

/-- A permission helper over one number standing for the permission fields. -/
def natPerms : PermsHelper Nat Nat :=
  { zero := 0, resourceDataToPermissions := fun f => f, permissionsToResourceData := fun _ p => p }

/-- A client without state whose calls all succeed; `Create` and `Update`
leave the user they are given as it is, `Get` answers with `fetched`. -/
def okClient (fetched : User Nat) : Client Nat Unit :=
  { Create := fun u s => ((u, none), s)
    Get := fun _ s => ((some fetched, none), s)
    Update := fun u s => ((u, none), s)
    Delete := fun _ s => (none, s) }

/-- A client without state whose every call fails with the error `e`. -/
def failClient (e : GoError) : Client Nat Unit :=
  { Create := fun u s => ((u, some e), s)
    Get := fun _ s => ((none, some e), s)
    Update := fun u s => ((u, some e), s)
    Delete := fun _ s => (some e, s) }

/-- The state of a user that was not created yet: `alice`, member of `teamA`. -/
def aliceState : ResourceData Nat :=
  { id := "", name := "Alice", username := "alice", email := "alice@example.com",
    teams := some [some "teamA"], notify := some [("billing", true), ("foo", false)],
    teamsOld := [], teamsNew := [some "teamA"], perms := 7 }

/-- The user `alice` as the API reports it. -/
def aliceFetched : User Nat :=
  { Name := "Alice", Username := "alice", Email := "alice@example.com",
    TeamIDs := some ["teamA"], Notify := { Billing := true }, Permissions := 42 }

/-- A state whose `notify` map has an entry, but none for `billing`. -/
def fooState : ResourceData Nat :=
  { aliceState with notify := some [("foo", false)] }

/-- A state whose `notify` map was given, and is empty. -/
def emptyNotifyState : ResourceData Nat :=
  { aliceState with notify := some [] }

/-- A client as `okClient`, except that the API puts every new user into the
team `everyone`: `Create` writes the answer into the user it was given. -/
def joinClient (fetched : User Nat) : Client Nat Unit :=
  { okClient fetched with
    Create := fun u s => (({ u with TeamIDs := some ["everyone"] }, none), s) }

/-- The state of a user that was not created yet and has no `teams`. -/
def soloState : ResourceData Nat :=
  { aliceState with teams := none, teamsNew := [] }

/-- The state of the existing user `alice` whose teams are being changed. -/
def movedState : ResourceData Nat :=
  { aliceState with id := "alice" }

/-- The state of the existing user `alice` whose teams stay as they are. -/
def settledState : ResourceData Nat :=
  { aliceState with id := "alice", teamsOld := [some "teamA"] }

/-- A state whose identifier is `alice` while its `username` field is `bob`;
its teams stay as they are. -/
def renamedState : ResourceData Nat :=
  { settledState with username := "bob" }

/-- The user `alice` as an API reports it that has renamed it to `alice2`. -/
def aliceRenamed : User Nat :=
  { aliceFetched with Username := "alice2" }

/-- A state with a `billing` entry whose planned teams are `z`, the empty
string and `a`: the framework hands out the nil interface for the second. -/
def blankTeamState : ResourceData Nat :=
  { aliceState with teams := some [some "z", none, some "a"],
                    teamsNew := [some "z", none, some "a"] }

/-- A client as `okClient`, except that `Update` writes the answer of the API
into the user it was given: the name `Server` and the username `alice9`. -/
def rewriteClient (fetched : User Nat) : Client Nat Unit :=
  { okClient fetched with
    Update := fun u s => (({ u with Name := "Server", Username := "alice9" }, none), s) }

/-! ## Auxiliary facts -/

theorem stringsContains_iff (s substr : String) :
    stringsContains s substr = true ↔ ∃ a b, s.toList = a ++ substr.toList ++ b := by
  unfold stringsContains
  rw [List.any_eq_true]
  constructor
  · rintro ⟨t, ht, hp⟩
    rw [List.mem_tails] at ht
    obtain ⟨a, ha⟩ := ht
    obtain ⟨b, hb⟩ := List.isPrefixOf_iff_prefix.mp hp
    exact ⟨a, b, by rw [← ha, ← hb, List.append_assoc]⟩
  · rintro ⟨a, b, hab⟩
    refine ⟨substr.toList ++ b, ?_, ?_⟩
    · rw [List.mem_tails]
      exact ⟨a, by rw [hab, List.append_assoc]⟩
    · exact List.isPrefixOf_iff_prefix.mpr ⟨b, rfl⟩

/-- The copy loop leaves the length of the slice as it was. -/
theorem copyLoop_length (teamsRaw : List (Option String)) :
    ∀ (ids : List String) (i : Nat), (copyLoop ids i teamsRaw).1.length = ids.length := by
  induction teamsRaw with
  | nil => intro ids i; rfl
  | cons t rest ih =>
    intro ids i
    cases t with
    | none => rfl
    | some team => simp [copyLoop, ih]

/-- The copy loop ends normally exactly when no element is the nil interface. -/
theorem copyLoop_ok_iff (teamsRaw : List (Option String)) :
    ∀ (ids : List String) (i : Nat), (copyLoop ids i teamsRaw).2 = true ↔ none ∉ teamsRaw := by
  induction teamsRaw with
  | nil => intro ids i; simp [copyLoop]
  | cons t rest ih =>
    intro ids i
    cases t with
    | none => simp [copyLoop]
    | some team => simp [copyLoop, ih]

/-- On a list of strings the copy loop fills the slice with them, in order. -/
theorem copyLoop_strings (l : List String) : ∀ done : List String,
    copyLoop (done ++ List.replicate l.length "") done.length (l.map some)
      = (done ++ l, true) := by
  induction l with
  | nil => intro done; simp [copyLoop]
  | cons x xs ih =>
    intro done
    have hstep : (done ++ List.replicate (x :: xs).length "").set done.length x
        = (done ++ [x]) ++ List.replicate xs.length "" := by
      simp [List.replicate_succ, List.set_append_right]
    have hlen : (done ++ [x]).length = done.length + 1 := by simp
    rw [List.map_cons, copyLoop, hstep, ← hlen, ih (done ++ [x])]
    simp

/-- A list without nil element is a list of strings. -/
theorem strings_of_no_nil (teamsRaw : List (Option String)) (hno : none ∉ teamsRaw) :
    ∃ l : List String, teamsRaw = l.map some := by
  induction teamsRaw with
  | nil => exact ⟨[], rfl⟩
  | cons t rest ih =>
    cases t with
    | none => exact absurd (List.mem_cons_self _ _) hno
    | some team =>
      obtain ⟨l, hl⟩ := ih (fun hmem => hno (List.mem_cons_of_mem _ hmem))
      exact ⟨team :: l, by rw [hl]; rfl⟩

theorem copyTeams_strings (l : List String) : copyTeams (l.map some) = (l, true) := by
  have h := copyLoop_strings l []
  simpa [copyTeams] using h

theorem copyTeams_length (teamsRaw : List (Option String)) :
    (copyTeams teamsRaw).1.length = teamsRaw.length := by
  simp [copyTeams, copyLoop_length]

theorem copyTeams_ok_iff (teamsRaw : List (Option String)) :
    (copyTeams teamsRaw).2 = true ↔ none ∉ teamsRaw :=
  copyLoop_ok_iff teamsRaw _ _

/-- The three ways through lines 74-79: no usable `notify` map, a map with a
`billing` entry, a map without one. -/
theorem notifyToUser_eq {P F : Type} (h : PermsHelper P F) (u : User P)
    (d : ResourceData F) :
    notifyToUser h u d =
      if d.GetNotify = [] then
        ({ u with Permissions := h.resourceDataToPermissions d.perms }, Outcome.returned none)
      else
        match d.GetNotify.lookup "billing" with
        | some b =>
          ({ u with Notify := { Billing := b },
                    Permissions := h.resourceDataToPermissions d.perms },
            Outcome.returned none)
        | none => (u, Outcome.panicked) := by
  obtain ⟨id, name, username, email, teams, notify, tOld, tNew, perms⟩ := d
  rcases notify with _ | _ | ⟨e, m⟩
  · rfl
  · rfl
  · simp only [notifyToUser, ResourceData.GetOkNotify, ResourceData.GetNotify]
    cases hb : List.lookup "billing" (e :: m) <;> simp [hb]

/-- The two ways through lines 62-73 of `resourceDataToUser`: the copy loop
panics, or lines 74-79 run on the user with the copied teams. -/
theorem resourceDataToUser_eq {P F : Type} (h : PermsHelper P F) (u : User P)
    (d : ResourceData F) :
    resourceDataToUser h u d =
      if (copyTeams d.GetTeams).2 = true then notifyToUser h (userUpToTeams u d) d
      else (userUpToTeams u d, Outcome.panicked) := by
  obtain ⟨id, name, username, email, teams, notify, tOld, tNew, perms⟩ := d
  rcases teams with _ | _ | ⟨t, l⟩
  · rfl
  · rfl
  · simp only [resourceDataToUser, userUpToTeams, ResourceData.GetOkTeams,
      ResourceData.GetTeams, ResourceData.GetName, ResourceData.GetUsername,
      ResourceData.GetEmail]
    rcases hc : copyTeams (t :: l) with ⟨ids, _ | _⟩ <;> simp [hc]

/-- Lines 74-79 leave `Name`, `Username`, `Email` and `TeamIDs` alone. -/
theorem notifyToUser_keeps {P F : Type} (h : PermsHelper P F) (u : User P)
    (d : ResourceData F) :
    (notifyToUser h u d).1.Name = u.Name ∧ (notifyToUser h u d).1.Username = u.Username ∧
    (notifyToUser h u d).1.Email = u.Email ∧ (notifyToUser h u d).1.TeamIDs = u.TeamIDs := by
  rw [notifyToUser_eq]
  split
  · exact ⟨rfl, rfl, rfl, rfl⟩
  · split <;> exact ⟨rfl, rfl, rfl, rfl⟩

/-- Whichever way `resourceDataToUser` ends, `TeamIDs` is the allocated slice
the copy loop has filled. -/
theorem resourceDataToUser_teams {P F : Type} (h : PermsHelper P F) (u : User P)
    (d : ResourceData F) :
    (resourceDataToUser h u d).1.TeamIDs = some (copyTeams d.GetTeams).1 := by
  rw [resourceDataToUser_eq]
  split
  · rw [(notifyToUser_keeps h _ d).2.2.2]
    rfl
  · rfl

/-- The user handed to `Create` and `Update` carries the `username` field of
the state: line 63 overwrites whatever `Username` held before. -/
theorem resourceDataToUser_username {P F : Type} (h : PermsHelper P F) (u : User P)
    (d : ResourceData F) : (resourceDataToUser h u d).1.Username = d.GetUsername := by
  rw [resourceDataToUser_eq]
  split
  · rw [(notifyToUser_keeps h _ d).2.1]
    rfl
  · rfl

/-- The translation `resourceDataToUser` returns normally exactly when no
element of `teams` is nil and `Get("notify")` is the empty map or has a
`billing` entry, and panics otherwise. -/
theorem resourceDataToUser_out {P F : Type} (h : PermsHelper P F) (u : User P)
    (d : ResourceData F) :
    (resourceDataToUser h u d).2 =
      if none ∉ d.GetTeams ∧ (d.GetNotify = [] ∨ (d.GetNotify.lookup "billing").isSome) then
        Outcome.returned none
      else Outcome.panicked := by
  rw [resourceDataToUser_eq]
  by_cases ht : none ∈ d.GetTeams
  · have hc : ¬ ((copyTeams d.GetTeams).2 = true) := by
      rw [copyTeams_ok_iff]
      exact fun hno => hno ht
    rw [if_neg hc, if_neg (fun hand => hand.1 ht)]
  · have hc : (copyTeams d.GetTeams).2 = true := (copyTeams_ok_iff _).mpr ht
    rw [if_pos hc, notifyToUser_eq]
    by_cases hn : d.GetNotify = []
    · simp [hn, ht]
    · cases hb : List.lookup "billing" d.GetNotify <;> simp [hn, hb, ht]

/-- When no element of `teams` is nil and `Get("notify")` is the empty map or
has a `billing` entry, `resourceDataToUser` returns normally, and the user
holds the three strings, the teams and the `billing` flag of the state. -/
theorem resourceDataToUser_ok {P F : Type} (h : PermsHelper P F) (u : User P)
    (d : ResourceData F) (hteams : none ∉ d.GetTeams)
    (hn : d.GetNotify = [] ∨ ∃ b, d.GetNotify.lookup "billing" = some b) :
    ∃ v l, resourceDataToUser h u d = (v, Outcome.returned none) ∧
      v.Name = d.GetName ∧ v.Username = d.GetUsername ∧ v.Email = d.GetEmail ∧
      v.TeamIDs = some l ∧ d.GetTeams = l.map some ∧
      ∀ b, d.GetNotify.lookup "billing" = some b → v.Notify.Billing = b := by
  obtain ⟨l, hl⟩ := strings_of_no_nil d.GetTeams hteams
  have hc : (copyTeams d.GetTeams).2 = true := (copyTeams_ok_iff _).mpr hteams
  have hids : (copyTeams d.GetTeams).1 = l := by rw [hl, copyTeams_strings]
  rw [resourceDataToUser_eq, if_pos hc, notifyToUser_eq]
  by_cases he : d.GetNotify = []
  · rw [if_pos he]
    exact ⟨_, l, rfl, rfl, rfl, rfl, congrArg some hids, hl, by simp [he]⟩
  · rw [if_neg he]
    rcases hn with hn | ⟨b, hb⟩
    · exact absurd hn he
    · rw [hb]
      refine ⟨_, l, rfl, rfl, rfl, rfl, congrArg some hids, hl, ?_⟩
      intro b2 hb2
      exact Option.some.inj hb2

/-- A user that `resourceDataToUser` returned normally carries the teams of the
state, all of them strings. -/
theorem resourceDataToUser_returned {P F : Type} (h : PermsHelper P F) (u v : User P)
    (d : ResourceData F) (hv : resourceDataToUser h u d = (v, Outcome.returned none)) :
    ∃ l, v.TeamIDs = some l ∧ d.GetTeams = l.map some := by
  have hout := resourceDataToUser_out h u d
  rw [hv] at hout
  have hteams : none ∉ d.GetTeams := by
    by_contra hmem
    rw [if_neg (fun hand => hand.1 hmem)] at hout
    exact absurd hout (by simp)
  obtain ⟨l, hl⟩ := strings_of_no_nil d.GetTeams hteams
  have ht := resourceDataToUser_teams h u d
  rw [hv] at ht
  refine ⟨l, ?_, hl⟩
  rw [ht, hl, copyTeams_strings]

/-- The follow-up `Get` is always recorded after the calls made before it. -/
theorem refresh_calls {P F σ : Type} (h : PermsHelper P F) (c : Client P σ)
    (d : ResourceData F) (pre : List (Call P)) (key : String) (s : σ) :
    (refresh h c d pre key s).calls = pre ++ [Call.Get key] := by
  unfold refresh
  rcases c.Get key s with ⟨⟨_ | uu, _ | e⟩, s2⟩ <;> rfl

/-- A follow-up `Get` that fetches `uu` without error populates the state from
`uu`. -/
theorem refresh_ok {P F σ : Type} (h : PermsHelper P F) (c : Client P σ)
    (d : ResourceData F) (pre : List (Call P)) (key : String) (s s2 : σ) (uu : User P)
    (hg : c.Get key s = ((some uu, none), s2)) :
    refresh h c d pre key s =
      ⟨userToResourceData h d uu, Outcome.returned none, pre ++ [Call.Get key], s2⟩ := by
  unfold refresh
  rw [hg]

/-- A follow-up `Get` that ends without error has fetched a user. -/
theorem refresh_returned {P F σ : Type} (h : PermsHelper P F) (c : Client P σ)
    (d : ResourceData F) (pre : List (Call P)) (key : String) (s : σ)
    (hok : (refresh h c d pre key s).out = Outcome.returned none) :
    ∃ uu s2, c.Get key s = ((some uu, none), s2) := by
  unfold refresh at hok
  rcases hg : c.Get key s with ⟨⟨_ | uu, _ | e⟩, s2⟩
  · rw [hg] at hok; exact absurd hok (by simp)
  · rw [hg] at hok; exact absurd hok (by simp)
  · exact ⟨uu, s2, rfl⟩
  · rw [hg] at hok; exact absurd hok (by simp)

/-- The run of `UserCreate` once the user `u` is built and `Create` has answered. -/
theorem UserCreate_step {P F σ : Type} (h : PermsHelper P F) (c : Client P σ)
    (d : ResourceData F) (s s1 : σ) (u u1 : User P) (err : Option GoError)
    (hu : resourceDataToUser h (User.zero h) d = (u, Outcome.returned none))
    (hc : c.Create u s = ((u1, err), s1)) :
    UserCreate h c d s =
      match err with
      | some e => ⟨d, Outcome.returned (some e), [Call.Create u], s1⟩
      | none =>
        if len u1.TeamIDs > 0 then refresh h c d [Call.Create u] u1.Username s1
        else ⟨userToResourceData h d u1, Outcome.returned none, [Call.Create u], s1⟩ := by
  unfold UserCreate
  rw [hu]
  simp only [hc]
  cases err <;> rfl

/-- The run of `UserUpdate` once the user `u` is built and `Update` has answered. -/
theorem UserUpdate_step {P F σ : Type} (h : PermsHelper P F) (c : Client P σ)
    (d : ResourceData F) (s s1 : σ) (u u1 : User P) (err : Option GoError)
    (hu : resourceDataToUser h { User.zero h with Username := d.Id } d
      = (u, Outcome.returned none))
    (hc : c.Update u s = ((u1, err), s1)) :
    UserUpdate h c d s =
      match err with
      | some e => ⟨d, Outcome.returned (some e), [Call.Update u], s1⟩
      | none =>
        if d.HasChangeTeams then refresh h c d [Call.Update u] d.Id s1
        else ⟨userToResourceData h d u1, Outcome.returned none, [Call.Update u], s1⟩ := by
  unfold UserUpdate
  rw [hu]
  simp only [hc]
  cases err <;> rfl

/-! ## The claims -/

/-- C1. `UserRead` when the API `Get` call fails with the error `err`: if the
message of `err` contains the text "User not found", the identifier is set to
the empty string, nothing else in the state changes and no error is returned;
otherwise `err` itself is returned and the state is left as it was. -/
theorem UserRead_get_error {P F σ : Type} (h : PermsHelper P F) (c : Client P σ)
    (d : ResourceData F) (s s1 : σ) (fetched : Option (User P)) (err : GoError)
    (hget : c.Get d.Id s = ((fetched, some err), s1)) :
    ((∃ a b, err.Error.toList = a ++ "User not found".toList ++ b) →
        (UserRead h c d s).d = { d with id := "" } ∧ (UserRead h c d s).d.Id = "" ∧
        (UserRead h c d s).out = Outcome.returned none) ∧
    ((¬ ∃ a b, err.Error.toList = a ++ "User not found".toList ++ b) →
        (UserRead h c d s).out = Outcome.returned (some err) ∧ (UserRead h c d s).d = d) := by
  have hrun : UserRead h c d s =
      if stringsContains err.Error "User not found" then
        ⟨d.SetId "", Outcome.returned none, [Call.Get d.Id], s1⟩
      else ⟨d, Outcome.returned (some err), [Call.Get d.Id], s1⟩ := by
    unfold UserRead
    rw [hget]
    cases fetched <;> rfl
  rw [← stringsContains_iff, hrun]
  constructor
  · intro hc
    rw [if_pos hc]
    exact ⟨rfl, rfl, rfl⟩
  · intro hc
    rw [if_neg hc]
    exact ⟨rfl, rfl⟩

/-- C1, at a client whose `Get` fails with "ns1: User not found": the state
`alice` with identifier `alice` loses its identifier and no error comes back. -/
theorem UserRead_get_error_witness :
    (UserRead natPerms (failClient ⟨404, "ns1: User not found"⟩)
        { aliceState with id := "alice" } ()).d = { aliceState with id := "" } ∧
    (UserRead natPerms (failClient ⟨404, "ns1: User not found"⟩)
        { aliceState with id := "alice" } ()).out = Outcome.returned none :=
  have hw := (UserRead_get_error natPerms (failClient ⟨404, "ns1: User not found"⟩)
    { aliceState with id := "alice" } () () none ⟨404, "ns1: User not found"⟩ rfl).1
    ⟨"ns1: ".toList, [], by decide⟩
  ⟨hw.1, hw.2.2⟩

/-- C2. `UserDelete`, for every state and every outcome of the API `Delete`
call: the one call made is `Delete` with the identifier held before, the
identifier is the empty string afterwards (the rest of the state is as before),
and the value returned is exactly the error (or nil) of the API call. -/
theorem UserDelete_clears_id {P F σ : Type} (c : Client P σ) (d : ResourceData F) (s : σ) :
    (UserDelete c d s : Run P F σ).calls = [Call.Delete d.Id] ∧
    (UserDelete c d s : Run P F σ).d.Id = "" ∧
    (UserDelete c d s : Run P F σ).d = { d with id := "" } ∧
    (UserDelete c d s : Run P F σ).out = Outcome.returned (c.Delete d.Id s).1 :=
  ⟨rfl, rfl, rfl, rfl⟩

/-- C7, as stated, fails: in `blankTeamState` the list `teams` is present with
the elements `z`, nil (a planned empty string) and `a`. The assertion of line
69 panics on the second element and `TeamIDs` is left as `z`, empty, empty,
which is not the list of the state, whether the nil element is read as such or
as the empty string. -/
theorem resourceDataToUser_blank_team_panics :
    blankTeamState.teams = some [some "z", none, some "a"] ∧
    (resourceDataToUser natPerms aliceFetched blankTeamState).2 = Outcome.panicked ∧
    (resourceDataToUser natPerms aliceFetched blankTeamState).1.TeamIDs
      = some ["z", "", ""] ∧
    (resourceDataToUser natPerms aliceFetched blankTeamState).1.TeamIDs
      ≠ some (blankTeamState.GetTeams.map (fun t => t.getD "")) := by
  decide

/-- C7, amended. `resourceDataToUser` sets `TeamIDs`, for every state and every
prior contents of the user, to an allocated slice as long as `teams`: when
`teams` is present and holds strings only (no nil element), the slice holds
the same strings in the same order; when `teams` is absent, it is the allocated
empty slice, which is not the nil slice. -/
theorem resourceDataToUser_TeamIDs {P F : Type} (h : PermsHelper P F) (u : User P)
    (d : ResourceData F) :
    ((resourceDataToUser h u d).1.TeamIDs ≠ none ∧
      len (resourceDataToUser h u d).1.TeamIDs = d.GetTeams.length) ∧
    (∀ l : List String, d.teams = some (l.map some) →
        (resourceDataToUser h u d).1.TeamIDs = some l ∧
        len (resourceDataToUser h u d).1.TeamIDs = l.length) ∧
    (d.teams = none →
        (resourceDataToUser h u d).1.TeamIDs = some [] ∧
        (resourceDataToUser h u d).1.TeamIDs ≠ none ∧
        len (resourceDataToUser h u d).1.TeamIDs = 0) := by
  rw [resourceDataToUser_teams]
  refine ⟨⟨by simp, by simp [len, copyTeams_length]⟩, ?_, ?_⟩
  · intro l hl
    simp [ResourceData.GetTeams, hl, len, copyTeams_strings]
  · intro hl
    simp [ResourceData.GetTeams, hl, len, copyTeams, copyLoop]

/-- C7, amended, at the state `alice` and at the same state without `teams`,
starting from a user that already has team identifiers. -/
theorem resourceDataToUser_TeamIDs_witness :
    (resourceDataToUser natPerms aliceFetched aliceState).1.TeamIDs = some ["teamA"] ∧
    (resourceDataToUser natPerms aliceFetched { aliceState with teams := none }).1.TeamIDs
      = some [] :=
  ⟨((resourceDataToUser_TeamIDs natPerms aliceFetched aliceState).2.1 ["teamA"] rfl).1,
   ((resourceDataToUser_TeamIDs natPerms aliceFetched { aliceState with teams := none }).2.2
      rfl).1⟩

/-- C5, as stated, fails on two kinds of schema-conforming state: `fooState`,
whose `notify` map is `foo: false`, and `blankTeamState`, whose teams hold a
nil element (a planned empty string). On both `resourceDataToUser` panics and
the round trip yields no state. -/
theorem roundTrip_aborts :
    (fooState.notify = some [("foo", false)] ∧
      (resourceDataToUser natPerms (User.zero natPerms) fooState).2 = Outcome.panicked ∧
      roundTrip natPerms fooState = none) ∧
    (blankTeamState.teams = some [some "z", none, some "a"] ∧
      (resourceDataToUser natPerms (User.zero natPerms) blankTeamState).2
        = Outcome.panicked ∧
      roundTrip natPerms blankTeamState = none) := by
  decide

/-- C5, amended. For every state whose teams hold strings only (no nil
element) and whose `notify` is unset, empty, or has a `billing` entry,
`resourceDataToUser` on a fresh user followed by `userToResourceData` onto the
same state yields a state whose `name`, `username`, `email` and `teams` values
equal those of the state, the order of `teams` included. -/
theorem roundTrip_preserves {P F : Type} (h : PermsHelper P F) (d : ResourceData F)
    (hteams : none ∉ d.GetTeams)
    (hn : d.GetNotify = [] ∨ ∃ b, d.GetNotify.lookup "billing" = some b) :
    ∃ d2, roundTrip h d = some d2 ∧ d2.GetName = d.GetName ∧
      d2.GetUsername = d.GetUsername ∧ d2.GetEmail = d.GetEmail ∧
      d2.GetTeams = d.GetTeams := by
  obtain ⟨v, l, hv, hname, -, hemail, hids, hl, -⟩ :=
    resourceDataToUser_ok h (User.zero h) d hteams hn
  refine ⟨userToResourceData h d v, ?_, ?_, rfl, ?_, ?_⟩
  · simp only [roundTrip, hv]
  · exact hname
  · exact hemail
  · simp [userToResourceData, ResourceData.GetTeams, ResourceData.SetTeams,
      ResourceData.SetNotify, hids]
    simpa [ResourceData.GetTeams] using hl.symm

/-- C5, amended, at the state `alice`, whose teams are `teamA`. -/
theorem roundTrip_preserves_witness :
    ∃ d2, roundTrip natPerms aliceState = some d2 ∧ d2.GetName = "Alice" ∧
      d2.GetUsername = "alice" ∧ d2.GetEmail = "alice@example.com" ∧
      d2.GetTeams = [some "teamA"] :=
  roundTrip_preserves natPerms aliceState (by decide) (Or.inr ⟨true, by decide⟩)

/-- C6, as stated, fails: the `notify` map of `blankTeamState` has the entry
`billing: true`, yet the round trip yields no `notify` map, because the
assertion of line 69 panics on the nil element of `teams`. -/
theorem roundTrip_blank_team_aborts :
    blankTeamState.GetNotify.lookup "billing" = some true ∧
    (resourceDataToUser natPerms (User.zero natPerms) blankTeamState).2 = Outcome.panicked ∧
    roundTrip natPerms blankTeamState = none := by
  decide

/-- C6, amended. For every state whose teams hold strings only (no nil element)
and whose `notify` map has a `billing` entry with value `b`, whatever else the
map holds, the round trip yields a state whose `notify` map is exactly the one
entry `billing: b`: every other key is absent. -/
theorem roundTrip_notify {P F : Type} (h : PermsHelper P F) (d : ResourceData F) (b : Bool)
    (hteams : none ∉ d.GetTeams)
    (hb : d.GetNotify.lookup "billing" = some b) :
    ∃ d2, roundTrip h d = some d2 ∧ d2.notify = some [("billing", b)] ∧
      d2.GetNotify.lookup "billing" = some b ∧
      ∀ k, k ≠ "billing" → d2.GetNotify.lookup k = none := by
  obtain ⟨v, l, hv, -, -, -, -, -, hbill⟩ :=
    resourceDataToUser_ok h (User.zero h) d hteams (Or.inr ⟨b, hb⟩)
  have hnotify : (userToResourceData h d v).notify = some [("billing", b)] := by
    simp [userToResourceData, ResourceData.SetNotify, mapSet, hbill b hb]
  refine ⟨userToResourceData h d v, ?_, hnotify, ?_, ?_⟩
  · simp only [roundTrip, hv]
  · rw [ResourceData.GetNotify, hnotify]
    simp [List.lookup]
  · intro k hk
    have hk2 : (k == "billing") = false := by simpa using hk
    rw [ResourceData.GetNotify, hnotify]
    simp [List.lookup, hk2]

/-- C6, amended, at the map `billing: true, foo: false` of the state `alice`:
the round trip leaves the map `billing: true`. -/
theorem roundTrip_notify_witness :
    ∃ d2, roundTrip natPerms aliceState = some d2 ∧ d2.notify = some [("billing", true)] ∧
      d2.GetNotify.lookup "billing" = some true ∧
      ∀ k, k ≠ "billing" → d2.GetNotify.lookup k = none :=
  roundTrip_notify natPerms aliceState true (by decide) (by decide)

/-- C10, as stated, fails in both directions. In `emptyNotifyState` the
`notify` map is present (it was given, as the empty map) and has no `billing`
entry, yet `resourceDataToUser` returns normally, because `GetOk` reports a
field holding the zero value of its type as not set. In `blankTeamState` the
`notify` map has a `billing` entry, yet `resourceDataToUser` panics, at line 69
on the nil element of `teams`. -/
theorem resourceDataToUser_returns_not_iff :
    (emptyNotifyState.notify ≠ none ∧
      emptyNotifyState.GetNotify.lookup "billing" = none ∧
      (resourceDataToUser natPerms (User.zero natPerms) emptyNotifyState).2
        = Outcome.returned none) ∧
    (blankTeamState.GetNotify.lookup "billing" = some true ∧
      (resourceDataToUser natPerms (User.zero natPerms) blankTeamState).2
        = Outcome.panicked) := by
  decide

/-- C10, amended. For every state conforming to the schema, `resourceDataToUser`
returns normally if and only if the teams hold strings only (no nil element)
and `notify` is absent, is the empty map, or has a `billing` entry; on every
other state it panics. In particular a non-empty `notify` map without `billing`,
such as `foo: false`, makes the unchecked assertion of line 76 panic when the
teams hold strings only. -/
theorem resourceDataToUser_returns_iff {P F : Type} (h : PermsHelper P F) (u : User P)
    (d : ResourceData F) :
    ((resourceDataToUser h u d).2 = Outcome.returned none ↔
      (none ∉ d.GetTeams ∧
        (d.notify = none ∨ d.notify = some [] ∨
          ∃ m b, d.notify = some m ∧ m.lookup "billing" = some b))) ∧
    ((resourceDataToUser h u d).2 ≠ Outcome.returned none →
      (resourceDataToUser h u d).2 = Outcome.panicked) := by
  rw [resourceDataToUser_out]
  by_cases ht : none ∈ d.GetTeams
  · simp [ht]
  · obtain ⟨id, name, username, email, teams, notify, tOld, tNew, perms⟩ := d
    rcases notify with _ | _ | ⟨e, m⟩
    · simp [ResourceData.GetNotify, ht]
    · simp [ResourceData.GetNotify, ht]
    · cases hb : List.lookup "billing" (e :: m) <;> simp [ResourceData.GetNotify, hb, ht]

/-- C10, amended, at the state whose `notify` map is `foo: false`: the
translation does not return normally, it panics. -/
theorem resourceDataToUser_returns_iff_witness :
    (resourceDataToUser natPerms (User.zero natPerms) fooState).2 = Outcome.panicked :=
  (resourceDataToUser_returns_iff natPerms (User.zero natPerms) fooState).2 (by decide)

/-- C3, as stated, fails: the user built from `soloState` has zero team
identifiers and `Create` succeeds, yet two API calls are made, `Create` then
`Get`, because the length test of line 95 reads the user after `Create` wrote
the answer of the API into it. -/
theorem UserCreate_no_teams_two_calls :
    len (resourceDataToUser natPerms (User.zero natPerms) soloState).1.TeamIDs = 0 ∧
    ((joinClient aliceFetched).Create
      (resourceDataToUser natPerms (User.zero natPerms) soloState).1 ()).1.2 = none ∧
    (UserCreate natPerms (joinClient aliceFetched) soloState ()).calls =
      [Call.Create (resourceDataToUser natPerms (User.zero natPerms) soloState).1,
       Call.Get "alice"] ∧
    (UserCreate natPerms (joinClient aliceFetched) soloState ()).d =
      userToResourceData natPerms soloState aliceFetched := by
  decide

/-- C3, amended. `UserCreate`, when `Create` succeeds on the user `u` built
from state and leaves it as `u1`: if `u1` has zero team identifiers, exactly
one API call (`Create u`) is made and state is populated by
`userToResourceData` from `u1`; if `u1` has one or more, exactly two calls are
made, `Create u` then `Get(u1.Username)`, and on a successful `Get` state is
populated from the fetched object. The user `u` carries the teams and the
username of the state, so when `Create` leaves the object as it was (`u1 = u`)
the test is on the teams of the state. -/
theorem UserCreate_after_success {P F σ : Type} (h : PermsHelper P F) (c : Client P σ)
    (d : ResourceData F) (s s1 : σ) (u u1 : User P)
    (hu : resourceDataToUser h (User.zero h) d = (u, Outcome.returned none))
    (hc : c.Create u s = ((u1, none), s1)) :
    ((∃ l, u.TeamIDs = some l ∧ d.GetTeams = l.map some) ∧ u.Username = d.GetUsername) ∧
    (len u1.TeamIDs = 0 →
      (UserCreate h c d s).calls = [Call.Create u] ∧
      (UserCreate h c d s).d = userToResourceData h d u1 ∧
      (UserCreate h c d s).out = Outcome.returned none) ∧
    (0 < len u1.TeamIDs →
      (UserCreate h c d s).calls = [Call.Create u, Call.Get u1.Username] ∧
      ∀ uu s2, c.Get u1.Username s1 = ((some uu, none), s2) →
        (UserCreate h c d s).d = userToResourceData h d uu ∧
        (UserCreate h c d s).out = Outcome.returned none) := by
  have hstep := UserCreate_step h c d s s1 u u1 none hu hc
  simp only at hstep
  refine ⟨⟨?_, ?_⟩, ?_, ?_⟩
  · exact resourceDataToUser_returned h (User.zero h) u d hu
  · have hn := resourceDataToUser_username h (User.zero h) d
    rw [hu] at hn
    exact hn
  · intro hz
    have hnot : ¬ len u1.TeamIDs > 0 := by omega
    rw [hstep, if_neg hnot]
    exact ⟨rfl, rfl, rfl⟩
  · intro hpos
    rw [hstep, if_pos hpos]
    refine ⟨refresh_calls h c d _ _ _, ?_⟩
    intro uu s2 hg
    rw [refresh_ok h c d _ _ s1 s2 uu hg]
    exact ⟨rfl, rfl⟩

/-- C3, amended, at the scenario of the specification: `alice` with the team
`teamA` is created through two calls, `Create` then `Get("alice")`, and the
state holds the fetched user, its server-computed permissions included. -/
theorem UserCreate_after_success_witness :
    (UserCreate natPerms (okClient aliceFetched) aliceState ()).calls =
      [Call.Create (resourceDataToUser natPerms (User.zero natPerms) aliceState).1,
       Call.Get "alice"] ∧
    (UserCreate natPerms (okClient aliceFetched) aliceState ()).d =
      userToResourceData natPerms aliceState aliceFetched ∧
    (UserCreate natPerms (okClient aliceFetched) aliceState ()).d.perms = 42 :=
  have hw := (UserCreate_after_success natPerms (okClient aliceFetched) aliceState () ()
    (resourceDataToUser natPerms (User.zero natPerms) aliceState).1
    (resourceDataToUser natPerms (User.zero natPerms) aliceState).1
    (by decide) rfl).2.2 (by decide)
  ⟨hw.1, (hw.2 aliceFetched () rfl).1, by decide⟩

/-- C4, as stated, fails: the teams of `settledState` did not change and
`Update` succeeds, so no `Get` is made, yet the state is not populated from the
user as it was sent. `Update` wrote the name `Server` and the username `alice9`
into the object, and these are what the state holds afterwards. -/
theorem UserUpdate_state_not_as_sent :
    (UserUpdate natPerms (rewriteClient aliceFetched) settledState ()).out
      = Outcome.returned none ∧
    (UserUpdate natPerms (rewriteClient aliceFetched) settledState ()).calls =
      [Call.Update { Name := "Alice", Username := "alice", Email := "alice@example.com",
                     TeamIDs := some ["teamA"], Notify := { Billing := true },
                     Permissions := 7 }] ∧
    (UserUpdate natPerms (rewriteClient aliceFetched) settledState ()).d.GetName
      = "Server" ∧
    (UserUpdate natPerms (rewriteClient aliceFetched) settledState ()).d.Id = "alice9" ∧
    (UserUpdate natPerms (rewriteClient aliceFetched) settledState ()).d ≠
      userToResourceData natPerms settledState
        { Name := "Alice", Username := "alice", Email := "alice@example.com",
          TeamIDs := some ["teamA"], Notify := { Billing := true }, Permissions := 7 } := by
  decide

/-- C4, amended. `UserUpdate`, when `Update` succeeds on the user `u` built
from state and leaves it as `u1`: a follow-up `Get` is among the calls if and
only if `teams` changed relative to prior state, and it is `Get` of the
identifier. When it is made and fetches `uu` without error, the state holds
`uu`: identifier, name, email, teams, the one `notify` entry `billing` and the
permission fields are written from `uu`. When it is not made, `Update u` is the
only call and the state holds `u1` in the same way, that is the sent object as
the `Update` call left it. -/
theorem UserUpdate_resync_iff_teams_changed {P F σ : Type} (h : PermsHelper P F)
    (c : Client P σ) (d : ResourceData F) (s s1 : σ) (u u1 : User P)
    (hu : resourceDataToUser h { User.zero h with Username := d.Id } d
      = (u, Outcome.returned none))
    (hc : c.Update u s = ((u1, none), s1)) :
    ((∃ key, Call.Get key ∈ (UserUpdate h c d s).calls) ↔ d.teamsOld ≠ d.teamsNew) ∧
    (d.teamsOld ≠ d.teamsNew →
      (UserUpdate h c d s).calls = [Call.Update u, Call.Get d.Id] ∧
      ∀ uu s2, c.Get d.Id s1 = ((some uu, none), s2) →
        (UserUpdate h c d s).d =
          { d with id := uu.Username, name := uu.Name, email := uu.Email,
                   teams := some ((uu.TeamIDs.getD []).map some),
                   notify := some [("billing", uu.Notify.Billing)],
                   perms := h.permissionsToResourceData d.perms uu.Permissions } ∧
        (UserUpdate h c d s).out = Outcome.returned none) ∧
    (d.teamsOld = d.teamsNew →
      (UserUpdate h c d s).calls = [Call.Update u] ∧
      (UserUpdate h c d s).d =
        { d with id := u1.Username, name := u1.Name, email := u1.Email,
                 teams := some ((u1.TeamIDs.getD []).map some),
                 notify := some [("billing", u1.Notify.Billing)],
                 perms := h.permissionsToResourceData d.perms u1.Permissions } ∧
      (UserUpdate h c d s).out = Outcome.returned none) := by
  have hstep := UserUpdate_step h c d s s1 u u1 none hu hc
  simp only at hstep
  have hpop : ∀ v : User P, userToResourceData h d v =
      { d with id := v.Username, name := v.Name, email := v.Email,
               teams := some ((v.TeamIDs.getD []).map some),
               notify := some [("billing", v.Notify.Billing)],
               perms := h.permissionsToResourceData d.perms v.Permissions } := by
    intro v
    simp [userToResourceData, ResourceData.SetId, ResourceData.SetName,
      ResourceData.SetEmail, ResourceData.SetTeams, ResourceData.SetNotify, mapSet]
  by_cases hch : d.teamsOld = d.teamsNew
  · have hfalse : ¬ (d.HasChangeTeams = true) := by simp [ResourceData.HasChangeTeams, hch]
    rw [hstep, if_neg hfalse]
    refine ⟨?_, fun hne => absurd hch hne, fun _ => ⟨rfl, hpop u1, rfl⟩⟩
    simp [hch]
  · have htrue : d.HasChangeTeams = true := by simp [ResourceData.HasChangeTeams, hch]
    rw [hstep, if_pos htrue]
    refine ⟨?_, fun _ => ⟨refresh_calls h c d _ _ _, ?_⟩, fun heq => absurd heq hch⟩
    · rw [refresh_calls]
      simp [hch]
    · intro uu s2 hg
      rw [refresh_ok h c d _ _ s1 s2 uu hg]
      exact ⟨hpop uu, rfl⟩

/-- C4, amended, at the user `alice`. With unchanged teams and an `Update` that
writes `Server` and `alice9` into the object, `Update` is the only call and the
state holds the rewritten object. With changed teams the calls are `Update`
then `Get("alice")` and the state holds the fetched user. -/
theorem UserUpdate_resync_iff_teams_changed_witness :
    ((UserUpdate natPerms (rewriteClient aliceFetched) settledState ()).calls =
        [Call.Update
          (resourceDataToUser natPerms (User.zero natPerms) settledState).1] ∧
      (UserUpdate natPerms (rewriteClient aliceFetched) settledState ()).d =
        { settledState with id := "alice9", name := "Server",
                            notify := some [("billing", true)] }) ∧
    ((UserUpdate natPerms (okClient aliceFetched) movedState ()).calls =
        [Call.Update (resourceDataToUser natPerms (User.zero natPerms) movedState).1,
         Call.Get "alice"] ∧
      (UserUpdate natPerms (okClient aliceFetched) movedState ()).d =
        { movedState with notify := some [("billing", true)], perms := 42 }) :=
  have hs := (UserUpdate_resync_iff_teams_changed natPerms (rewriteClient aliceFetched)
    settledState () ()
    (resourceDataToUser natPerms (User.zero natPerms) settledState).1
    { (resourceDataToUser natPerms (User.zero natPerms) settledState).1 with
      Name := "Server", Username := "alice9" }
    (by decide) rfl).2.2 (by decide)
  have hm := (UserUpdate_resync_iff_teams_changed natPerms (okClient aliceFetched)
    movedState () ()
    (resourceDataToUser natPerms (User.zero natPerms) movedState).1
    (resourceDataToUser natPerms (User.zero natPerms) movedState).1
    (by decide) rfl).2.1 (by decide)
  ⟨⟨hs.1, hs.2.1.trans (by decide)⟩, ⟨hm.1, ((hm.2 aliceFetched () rfl).1).trans (by decide)⟩⟩

/-- C8, as stated, fails in both parts. In `renamedState` the identifier is
`alice` and the `username` field is `bob`: `UserUpdate` returns success, the
user passed to `Update` carries `bob`, and the identifier afterwards is `bob`.
In `movedState` identifier and `username` are both `alice`, and the follow-up
`Get` answers with a user named `alice2`: `UserUpdate` returns success and the
identifier afterwards is `alice2`. -/
theorem UserUpdate_id_changes :
    ((UserUpdate natPerms (okClient aliceFetched) renamedState ()).out
        = Outcome.returned none ∧
      renamedState.Id = "alice" ∧
      (UserUpdate natPerms (okClient aliceFetched) renamedState ()).d.Id = "bob" ∧
      (UserUpdate natPerms (okClient aliceFetched) renamedState ()).calls =
        [Call.Update { Name := "Alice", Username := "bob", Email := "alice@example.com",
                       TeamIDs := some ["teamA"], Notify := { Billing := true },
                       Permissions := 7 }]) ∧
    ((UserUpdate natPerms (okClient aliceRenamed) movedState ()).out
        = Outcome.returned none ∧
      movedState.Id = "alice" ∧ movedState.GetUsername = "alice" ∧
      (UserUpdate natPerms (okClient aliceRenamed) movedState ()).d.Id = "alice2") := by
  decide

/-- C8, amended. For every state whose `username` field equals the identifier
and every behaviour of the API client, if `UserUpdate` returns success then the
first call is `Update` of a user that carries the identifier as its username,
and the identifier afterwards is the username of the object the state was
populated from: the sent object as `Update` left it when `teams` did not
change, the object fetched by `Get` of the identifier when it did. So the
identifier is unchanged exactly when that object still carries it. -/
theorem UserUpdate_keeps_id {P F σ : Type} (h : PermsHelper P F) (c : Client P σ)
    (d : ResourceData F) (s : σ)
    (hname : d.GetUsername = d.Id)
    (hok : (UserUpdate h c d s).out = Outcome.returned none) :
    ∃ u u1 s1,
      (UserUpdate h c d s).calls.head? = some (Call.Update u) ∧ u.Username = d.Id ∧
      c.Update u s = ((u1, none), s1) ∧
      (d.teamsOld = d.teamsNew →
        (UserUpdate h c d s).d.Id = u1.Username ∧
        ((UserUpdate h c d s).d.Id = d.Id ↔ u1.Username = d.Id)) ∧
      (d.teamsOld ≠ d.teamsNew →
        ∃ uu s2, c.Get d.Id s1 = ((some uu, none), s2) ∧
          (UserUpdate h c d s).d.Id = uu.Username ∧
          ((UserUpdate h c d s).d.Id = d.Id ↔ uu.Username = d.Id)) := by
  have hn := resourceDataToUser_username h { User.zero h with Username := d.Id } d
  rcases hr : resourceDataToUser h { User.zero h with Username := d.Id } d with ⟨u, o⟩
  rw [hr] at hn
  rcases o with (_ | e) | _
  · rcases hc : c.Update u s with ⟨⟨u1, _ | e⟩, s1⟩
    · have hstep := UserUpdate_step h c d s s1 u u1 none hr hc
      simp only at hstep
      refine ⟨u, u1, s1, ?_, hn.trans hname, hc, ?_, ?_⟩
      · rw [hstep]
        split
        · rw [refresh_calls]; rfl
        · rfl
      · intro hch
        have hfalse : ¬ (d.HasChangeTeams = true) := by
          simp [ResourceData.HasChangeTeams, hch]
        rw [hstep, if_neg hfalse]
        have hid : (userToResourceData h d u1).Id = u1.Username := rfl
        exact ⟨hid, by rw [hid]⟩
      · intro hch
        have htrue : d.HasChangeTeams = true := by simp [ResourceData.HasChangeTeams, hch]
        rw [hstep, if_pos htrue] at hok
        obtain ⟨uu, s2, hg⟩ := refresh_returned h c d _ _ s1 hok
        refine ⟨uu, s2, hg, ?_⟩
        rw [hstep, if_pos htrue, refresh_ok h c d _ _ s1 s2 uu hg]
        have hid : (userToResourceData h d uu).Id = uu.Username := rfl
        exact ⟨hid, by rw [hid]⟩
    · have hstep := UserUpdate_step h c d s s1 u u1 (some e) hr hc
      simp only at hstep
      rw [hstep] at hok
      exact absurd hok (by simp)
  · have hout : (UserUpdate h c d s).out = Outcome.returned (some e) := by
      unfold UserUpdate
      rw [hr]
    rw [hout] at hok
    exact absurd hok (by simp)
  · have hout : (UserUpdate h c d s).out = Outcome.panicked := by
      unfold UserUpdate
      rw [hr]
    rw [hout] at hok
    exact absurd hok (by simp)

/-- C8, amended, at the user `alice` with unchanged teams: `Update` is called
with the username `alice` and the identifier stays `alice`. -/
theorem UserUpdate_keeps_id_witness :
    ∃ u u1 s1,
      (UserUpdate natPerms (okClient aliceFetched) settledState ()).calls.head?
        = some (Call.Update u) ∧ u.Username = settledState.Id ∧
      (okClient aliceFetched).Update u () = ((u1, none), s1) ∧
      (settledState.teamsOld = settledState.teamsNew →
        (UserUpdate natPerms (okClient aliceFetched) settledState ()).d.Id = u1.Username ∧
        ((UserUpdate natPerms (okClient aliceFetched) settledState ()).d.Id
          = settledState.Id ↔ u1.Username = settledState.Id)) ∧
      (settledState.teamsOld ≠ settledState.teamsNew →
        ∃ uu s2, (okClient aliceFetched).Get settledState.Id s1 = ((some uu, none), s2) ∧
          (UserUpdate natPerms (okClient aliceFetched) settledState ()).d.Id = uu.Username ∧
          ((UserUpdate natPerms (okClient aliceFetched) settledState ()).d.Id
            = settledState.Id ↔ uu.Username = settledState.Id)) :=
  UserUpdate_keeps_id natPerms (okClient aliceFetched) settledState () (by decide) (by decide)

/-- C9. `UserCreate` and `UserUpdate`, when the primary API call (`Create`,
resp. `Update`) on the user `u` built from state returns the error `e`: the
operation returns exactly `e`, the primary call is the only API call, and the
resource state is as it was before, the identifier included. -/
theorem primary_call_error {P F σ : Type} (h : PermsHelper P F) (c : Client P σ)
    (d : ResourceData F) (s s1 : σ) (u u1 : User P) (e : GoError) :
    (resourceDataToUser h (User.zero h) d = (u, Outcome.returned none) →
      c.Create u s = ((u1, some e), s1) →
      (UserCreate h c d s).out = Outcome.returned (some e) ∧
      (UserCreate h c d s).calls = [Call.Create u] ∧
      (UserCreate h c d s).d = d ∧ (UserCreate h c d s).d.Id = d.Id) ∧
    (resourceDataToUser h { User.zero h with Username := d.Id } d
        = (u, Outcome.returned none) →
      c.Update u s = ((u1, some e), s1) →
      (UserUpdate h c d s).out = Outcome.returned (some e) ∧
      (UserUpdate h c d s).calls = [Call.Update u] ∧
      (UserUpdate h c d s).d = d ∧ (UserUpdate h c d s).d.Id = d.Id) := by
  constructor
  · intro hu hc
    rw [UserCreate_step h c d s s1 u u1 (some e) hu hc]
    exact ⟨rfl, rfl, rfl, rfl⟩
  · intro hu hc
    rw [UserUpdate_step h c d s s1 u u1 (some e) hu hc]
    exact ⟨rfl, rfl, rfl, rfl⟩

/-- C9, at a client whose calls fail with "quota exceeded": creating `alice`
returns that error after the one call and leaves the identifier unset;
updating `alice` returns it after the one call and keeps the state. -/
theorem primary_call_error_witness :
    ((UserCreate natPerms (failClient ⟨500, "quota exceeded"⟩) aliceState ()).out
        = Outcome.returned (some ⟨500, "quota exceeded"⟩) ∧
      (UserCreate natPerms (failClient ⟨500, "quota exceeded"⟩) aliceState ()).calls.length
        = 1 ∧
      (UserCreate natPerms (failClient ⟨500, "quota exceeded"⟩) aliceState ()).d.Id = "") ∧
    ((UserUpdate natPerms (failClient ⟨500, "quota exceeded"⟩) movedState ()).out
        = Outcome.returned (some ⟨500, "quota exceeded"⟩) ∧
      (UserUpdate natPerms (failClient ⟨500, "quota exceeded"⟩) movedState ()).d
        = movedState) :=
  have hc := (primary_call_error natPerms (failClient ⟨500, "quota exceeded"⟩) aliceState
    () () (resourceDataToUser natPerms (User.zero natPerms) aliceState).1
    (resourceDataToUser natPerms (User.zero natPerms) aliceState).1
    ⟨500, "quota exceeded"⟩).1 (by decide) rfl
  have hu := (primary_call_error natPerms (failClient ⟨500, "quota exceeded"⟩) movedState
    () () (resourceDataToUser natPerms (User.zero natPerms) movedState).1
    (resourceDataToUser natPerms (User.zero natPerms) movedState).1
    ⟨500, "quota exceeded"⟩).2 (by decide) rfl
  ⟨⟨hc.1, by rw [hc.2.1]; rfl, by rw [hc.2.2.2]; rfl⟩, ⟨hu.1, hu.2.2.1⟩⟩

end NS1
